import Mathlib

/-!
Shallow embedding of `src/nimuv/nimuv.c`, the connection-lifecycle core of a
minimal libuv-based HTTP front-end.

The C file keeps, per accepted connection, a `client_t` whose only field of
interest to the lifecycle logic is `nim_request` (a nullable pointer to the
parser collaborator's request-in-progress object).  The handlers
(`on_read`, `end_response`, `send_response`, `start_server`) are modelled as
pure functions from the client state (plus the values the environment returns:
the bytes read, `nread`, the results of `http_readheader` / `http_continue` /
`uv_write` / `uv_tcp_bind` / `uv_listen`) to the new client state together with
a trace of the externally visible actions the handler performs, in program
order: calls into the parser collaborator (`http_readheader`, `http_continue`,
`http_end`), libuv submissions (`uv_close`, `uv_write`, bind/listen/run), the
`free` of the read buffer, and `fprintf(stderr, ...)` diagnostics.
-/

namespace Nimuv

/-- Opaque request-in-progress handles (`client->nim_request` when non-null),
identified by a numeric id; the C code only stores, compares with NULL and
passes them on. -/
abbrev Handle := Nat

/-- The lifecycle-relevant state of a `client_t`: its `nim_request` field
(NULL modelled as `none`). -/
structure Client where
  nim_request : Option Handle
  deriving DecidableEq, Repr

/-- Externally visible actions a handler can perform, in program order. -/
inductive Action where
  /-- call `http_readheader(client, buf->base, nread)` -/
  | httpReadheader (buf : List Nat) (nread : Int)
  /-- call `http_continue(rq, buf->base, nread)` -/
  | httpContinue (rq : Handle) (buf : List Nat) (nread : Int)
  /-- call `http_end(rq)` (finalize-abnormal on a pending request) -/
  | httpEnd (rq : Handle)
  /-- call `uv_close(&client->handle, on_close)` (request socket close) -/
  | uvClose
  /-- `free(buf->base)` (release the ephemeral read buffer) -/
  | freeBuf
  /-- `fprintf(stderr, "%s\n", uv_strerror(code))` (diagnostic log) -/
  | logDiag (code : Int)
  /-- `uv_write` submission of `len` bytes starting at `buffer` -/
  | uvWriteSubmit (buffer : List Nat) (len : Nat)
  /-- `uv_tcp_bind(&server, &address)` attempt -/
  | uvTcpBind
  /-- `uv_listen(&server, 128, on_connection)` attempt -/
  | uvListen
  /-- `uv_run(loop, UV_RUN_DEFAULT)` (enter the reactor run loop) -/
  | uvRun
  deriving DecidableEq, Repr

/-- `void end_response(client_t* client)`: requests the socket close via
`uv_close`; the client state is not touched. -/
def end_response (c : Client) : Client × List Action :=
  (c, [Action.uvClose])

/-- `void on_read(uv_tcp_t* tcp, ssize_t nread, const uv_buf_t* buf)`.
`beginResult` is the value `http_readheader` returns (NULL as `none`) and
`contResult` the boolean `http_continue` returns, both supplied by the
external parser collaborator.  Mirrors the C branch for branch; the trailing
`free(buf->base)` runs on every path. -/
def on_read (c : Client) (nread : Int) (buf : List Nat)
    (beginResult : Option Handle) (contResult : Bool) : Client × List Action :=
  if 0 ≤ nread then
    match c.nim_request with
    | none =>
        ({ nim_request := beginResult },
          [Action.httpReadheader buf nread, Action.freeBuf])
    | some rq =>
        if !contResult then
          ({ nim_request := none },
            [Action.httpContinue rq buf nread, Action.freeBuf])
        else
          (c, [Action.httpContinue rq buf nread, Action.freeBuf])
  else
    let fin :=
      match c.nim_request with
      | some rq => [Action.httpEnd rq]
      | none => []
    let er := end_response c
    (er.1, fin ++ er.2 ++ [Action.freeBuf])

/-- `strlen` on a NUL-terminated byte buffer: the number of bytes strictly
before the first NUL byte. -/
def strlen (s : List Nat) : Nat :=
  (s.takeWhile (fun b => b != 0)).length

/-- `void send_response(client_t* client, char* buffer)`.
`writeResult` is the synchronous return value of `uv_write` (0 on accepted
submission).  On failure the C code logs, finalizes a pending request if any,
and requests close; it never writes to `client->nim_request`. -/
def send_response (c : Client) (buffer : List Nat) (writeResult : Int) :
    Client × List Action :=
  let core := [Action.uvWriteSubmit buffer (strlen buffer)]
  if writeResult ≠ 0 then
    let fin :=
      match c.nim_request with
      | some rq => [Action.httpEnd rq]
      | none => []
    (c, core ++ [Action.logDiag writeResult] ++ fin ++ [Action.uvClose])
  else
    (c, core)

/-- `void start_server(char* ip, int port)`: bind, listen, run, where
`bindResult` and `listenResult` are the return values of `uv_tcp_bind` and
`uv_listen`.  Failures are logged and execution falls through. -/
def start_server (bindResult listenResult : Int) : List Action :=
  [Action.uvTcpBind] ++
    (if bindResult ≠ 0 then [Action.logDiag bindResult] else []) ++
    [Action.uvListen] ++
    (if listenResult ≠ 0 then [Action.logDiag listenResult] else []) ++
    [Action.uvRun]

/-- One delivery to the connection: a read callback (with the collaborator's
answers supplied), a `send_response` call from the response-dispatch
collaborator (with `uv_write`'s synchronous result), or an `end_response`
call. -/
inductive Event where
  | readEv (nread : Int) (buf : List Nat)
      (beginResult : Option Handle) (contResult : Bool)
  | sendEv (buffer : List Nat) (writeResult : Int)
  | endEv
  deriving DecidableEq, Repr

/-- Dispatch one event to the corresponding handler. -/
def step (c : Client) : Event → Client × List Action
  | Event.readEv nread buf beginResult contResult =>
      on_read c nread buf beginResult contResult
  | Event.sendEv buffer writeResult => send_response c buffer writeResult
  | Event.endEv => end_response c

/-- Run a sequence of deliveries, concatenating the action traces. -/
def run (c : Client) : List Event → Client × List Action
  | [] => (c, [])
  | e :: es =>
      let s := step c e
      let rest := run s.1 es
      (rest.1, s.2 ++ rest.2)

/-- Recognizer for `uv_close` actions. -/
def isClose : Action → Bool
  | Action.uvClose => true
  | _ => false

/-- Recognizer for `free(buf->base)` actions. -/
def isFree : Action → Bool
  | Action.freeBuf => true
  | _ => false

/-- Recognizer for diagnostic-log actions. -/
def isLog : Action → Bool
  | Action.logDiag _ => true
  | _ => false

/-- Recognizer for `http_end` applied to the given handle. -/
def isHttpEnd (rq : Handle) : Action → Bool
  | Action.httpEnd r => r == rq
  | _ => false

/-- Recognizer for `http_readheader` calls. -/
def isReadheader : Action → Bool
  | Action.httpReadheader _ _ => true
  | _ => false

/-- Recognizer for `http_continue` calls. -/
def isContinue : Action → Bool
  | Action.httpContinue _ _ _ => true
  | _ => false

/-- Number of `uv_close` requests in a trace. -/
def closeCount (as : List Action) : Nat := as.countP isClose

/-- Number of read-buffer releases in a trace. -/
def freeCount (as : List Action) : Nat := as.countP isFree

/-- Number of diagnostic log lines in a trace. -/
def logCount (as : List Action) : Nat := as.countP isLog

/-- Number of `http_end rq` calls in a trace. -/
def httpEndCount (rq : Handle) (as : List Action) : Nat :=
  as.countP (isHttpEnd rq)

/-- The bytes a `uv_write` submission actually hands to the transport:
the first `len` bytes starting at the buffer base. -/
def writtenOf : Action → Option (List Nat)
  | Action.uvWriteSubmit b len => some (b.take len)
  | _ => none

/-- Taking `(l.takeWhile p).length` elements of `l` recovers `l.takeWhile p`. -/
theorem take_length_takeWhile (p : Nat → Bool) (l : List Nat) :
    l.take (l.takeWhile p).length = l.takeWhile p := by
  induction l with
  | nil => rfl
  | cons a t ih =>
      by_cases h : p a <;> simp [List.takeWhile_cons, h, ih]

/-- Claim C4: on a successful read (`nread ≥ 0`, any length including zero)
with no request pending, `on_read` calls the collaborator's begin operation
(`http_readheader`) with the chunk and stores its result as `nim_request`
(a `none` result leaves it null); no close is requested, no finalize and no
`http_continue` happens on this path. -/
theorem on_read_begin_chunk (nread : Int) (buf : List Nat)
    (beginResult : Option Handle) (contResult : Bool) (h : 0 ≤ nread) :
    (on_read { nim_request := none } nread buf beginResult contResult).1.nim_request
        = beginResult ∧
    Action.httpReadheader buf nread
        ∈ (on_read { nim_request := none } nread buf beginResult contResult).2 ∧
    closeCount (on_read { nim_request := none } nread buf beginResult contResult).2 = 0 ∧
    (∀ rq, httpEndCount rq
        (on_read { nim_request := none } nread buf beginResult contResult).2 = 0) ∧
    (on_read { nim_request := none } nread buf beginResult contResult).2.countP
        isContinue = 0 := by
  simp [on_read, h, closeCount, httpEndCount, List.countP_cons, List.countP_nil,
    isClose, isHttpEnd, isContinue]

/-- Claim C4 witness at a concrete input. -/
theorem on_read_begin_chunk_witness :
    (on_read { nim_request := none } 3 [71, 69, 84] (some 7) true).1.nim_request
      = some 7 := by
  exact (on_read_begin_chunk 3 [71, 69, 84] (some 7) true (by decide)).1

/-- Claim C5: on a successful read (`nread ≥ 0`) with a pending request,
`on_read` calls the collaborator's continue operation (`http_continue`) on the
existing handle with the chunk: if it returns `false` the field is cleared,
if `true` it is retained unchanged; begin is never called and no close or
finalize happens on this path. -/
theorem on_read_continue_chunk (rq : Handle) (nread : Int) (buf : List Nat)
    (beginResult : Option Handle) (contResult : Bool) (h : 0 ≤ nread) :
    Action.httpContinue rq buf nread
        ∈ (on_read { nim_request := some rq } nread buf beginResult contResult).2 ∧
    (on_read { nim_request := some rq } nread buf beginResult contResult).1.nim_request
        = (if contResult then some rq else none) ∧
    (on_read { nim_request := some rq } nread buf beginResult contResult).2.countP
        isReadheader = 0 ∧
    closeCount (on_read { nim_request := some rq } nread buf beginResult contResult).2
        = 0 ∧
    (∀ r, httpEndCount r
        (on_read { nim_request := some rq } nread buf beginResult contResult).2 = 0) := by
  cases contResult <;>
    simp [on_read, h, closeCount, httpEndCount, List.countP_cons, List.countP_nil,
      isClose, isHttpEnd, isReadheader]

/-- Claim C5 witness at a concrete input. -/
theorem on_read_continue_chunk_witness :
    (on_read { nim_request := some 4 } 2 [13, 10] none false).1.nim_request
      = none := by
  exact (on_read_continue_chunk 4 2 [13, 10] none false (by decide)).2.1

/-- Claim C6: on a read reporting a transport error or EOF (`nread < 0`),
`on_read` invokes `http_end` exactly once on the pending handle when one is
present (and never when none is), with the `http_end` call preceding the close
request in the trace; teardown (`uv_close`) is requested exactly once in every
case. -/
theorem on_read_error_teardown (c : Client) (nread : Int) (buf : List Nat)
    (beginResult : Option Handle) (contResult : Bool) (h : nread < 0) :
    closeCount (on_read c nread buf beginResult contResult).2 = 1 ∧
    (∀ rq, c.nim_request = some rq →
      httpEndCount rq (on_read c nread buf beginResult contResult).2 = 1 ∧
      (on_read c nread buf beginResult contResult).2.get? 0
          = some (Action.httpEnd rq) ∧
      (on_read c nread buf beginResult contResult).2.get? 1 = some Action.uvClose) ∧
    (c.nim_request = none →
      ∀ rq, httpEndCount rq (on_read c nread buf beginResult contResult).2 = 0) := by
  have h2 : ¬ 0 ≤ nread := by omega
  cases hr : c.nim_request <;>
    simp [on_read, end_response, h2, hr, closeCount, httpEndCount,
      List.countP_cons, List.countP_nil, isClose, isHttpEnd]

/-- Claim C6 witness at a concrete input. -/
theorem on_read_error_teardown_witness :
    closeCount (on_read { nim_request := some 5 } (-4095) [] none true).2 = 1 ∧
    httpEndCount 5 (on_read { nim_request := some 5 } (-4095) [] none true).2 = 1 := by
  have h := on_read_error_teardown { nim_request := some 5 } (-4095) [] none true
    (by decide)
  exact ⟨h.1, (h.2.1 5 rfl).1⟩

/-- Claim C7: every invocation of `on_read`, whatever branch it takes
(successful chunk, zero-length chunk, request-completing chunk, transport
error with or without a pending request), releases the ephemeral read buffer
(`free(buf->base)`) exactly once. -/
theorem on_read_frees_buffer_once (c : Client) (nread : Int) (buf : List Nat)
    (beginResult : Option Handle) (contResult : Bool) :
    freeCount (on_read c nread buf beginResult contResult).2 = 1 := by
  by_cases h : 0 ≤ nread <;> cases hr : c.nim_request <;> cases contResult <;>
    simp [on_read, end_response, h, hr, freeCount, List.countP_cons,
      List.countP_nil, isFree]

/-- Claim C8: `start_server` logs bind and listen failures and keeps going:
the listen attempt is present in the trace for every bind result, the run loop
is entered (and is the final action) for every listen result, and exactly one
diagnostic line is emitted per failed step; the function is total, so no
failure propagates to the caller. -/
theorem start_server_continues_after_failures (bindResult listenResult : Int) :
    Action.uvListen ∈ start_server bindResult listenResult ∧
    Action.uvRun ∈ start_server bindResult listenResult ∧
    (start_server bindResult listenResult).getLast? = some Action.uvRun ∧
    logCount (start_server bindResult listenResult) =
      (if bindResult ≠ 0 then 1 else 0) + (if listenResult ≠ 0 then 1 else 0) := by
  by_cases hb : bindResult ≠ 0 <;> by_cases hl : listenResult ≠ 0 <;>
    simp [start_server, hb, hl, logCount, List.countP_cons, List.countP_nil, isLog]

/-- Claim C9: after `on_read` handles a transport error (`nread < 0`) on a
connection with a pending request, the client state is completely unchanged:
`nim_request` still holds the (now finalized) handle and is never reset to
null on this path. -/
theorem on_read_error_preserves_pending (c : Client) (rq : Handle) (nread : Int)
    (buf : List Nat) (beginResult : Option Handle) (contResult : Bool)
    (h : nread < 0) (hp : c.nim_request = some rq) :
    (on_read c nread buf beginResult contResult).1 = c ∧
    (on_read c nread buf beginResult contResult).1.nim_request = some rq := by
  have h2 : ¬ 0 ≤ nread := by omega
  simp [on_read, end_response, h2, hp]

/-- Claim C9 witness at a concrete input. -/
theorem on_read_error_preserves_pending_witness :
    (on_read { nim_request := some 9 } (-104) [0] none true).1.nim_request
      = some 9 := by
  exact (on_read_error_preserves_pending { nim_request := some 9 } 9 (-104) [0]
    none true (by decide) rfl).2

/-- Claim C10: every `send_response` call submits exactly one write, whose
bytes are exactly the bytes of `buffer` strictly before its first NUL byte
(the length passed to `uv_write` is `strlen buffer`); in particular a buffer
starting with NUL yields a zero-length write and bytes after an embedded NUL
are never sent. -/
theorem send_response_writes_strlen (c : Client) (buffer : List Nat)
    (writeResult : Int) :
    (send_response c buffer writeResult).2.filterMap writtenOf
        = [buffer.takeWhile (fun b => b != 0)] ∧
    Action.uvWriteSubmit buffer (strlen buffer)
        ∈ (send_response c buffer writeResult).2 := by
  by_cases h : writeResult ≠ 0 <;> cases hr : c.nim_request <;>
    simp [send_response, strlen, h, hr, writtenOf, take_length_takeWhile]

/-- Claim C1 counterexample: the code has no `Open`/`Closing` guard, so a
sequence of two close-triggering deliveries requests the close twice.  Here a
write submission fails (`uv_write` returns `-32`, close requested once) and
the dispatch collaborator — to whom `send_response` returns no error — then
calls `end_response`, requesting close a second time. -/
theorem double_close_counterexample :
    closeCount (run { nim_request := none }
      [Event.sendEv [72, 0] (-32), Event.endEv]).2 = 2 := by decide

/-- Claim C1 amended: within each single delivered event the close path runs
at most once, and each close-triggering branch (read transport error, write
submission failure, explicit end-response) requests close exactly once; but
nothing prevents a later delivery from requesting close again. -/
theorem step_close_at_most_once (c : Client) (e : Event) :
    closeCount (step c e).2 ≤ 1 ∧
    (∀ nread buf beginResult contResult, nread < 0 →
      closeCount (step c (Event.readEv nread buf beginResult contResult)).2 = 1) ∧
    (∀ buffer r, r ≠ 0 → closeCount (step c (Event.sendEv buffer r)).2 = 1) ∧
    closeCount (step c Event.endEv).2 = 1 := by
  refine ⟨?_, ?_, ?_, ?_⟩
  · cases e with
    | readEv nread buf beginResult contResult =>
        by_cases h : 0 ≤ nread <;> cases hr : c.nim_request <;> cases contResult <;>
          simp [step, on_read, end_response, h, hr, closeCount,
            List.countP_cons, List.countP_nil, isClose]
    | sendEv buffer r =>
        by_cases h : r ≠ 0 <;> cases hr : c.nim_request <;>
          simp [step, send_response, h, hr, closeCount,
            List.countP_cons, List.countP_nil, isClose]
    | endEv =>
        simp [step, end_response, closeCount, List.countP_cons,
          List.countP_nil, isClose]
  · intro nread buf beginResult contResult h
    have h2 : ¬ 0 ≤ nread := by omega
    cases hr : c.nim_request <;>
      simp [step, on_read, end_response, h2, hr, closeCount,
        List.countP_cons, List.countP_nil, isClose]
  · intro buffer r h
    cases hr : c.nim_request <;>
      simp [step, send_response, h, hr, closeCount,
        List.countP_cons, List.countP_nil, isClose]
  · simp [step, end_response, closeCount, List.countP_cons,
      List.countP_nil, isClose]

/-- Claim C1 amended witness at a concrete input. -/
theorem step_close_at_most_once_witness :
    closeCount (step { nim_request := none } (Event.readEv (-1) [] none true)).2
      = 1 := by
  exact (step_close_at_most_once { nim_request := none } Event.endEv).2.1
    (-1) [] none true (by decide)

/-- Claim C2 counterexample: neither error path clears `nim_request`, so the
same handle can be finalized twice.  A transport error arrives while request
handle `0` is pending (`http_end 0`, close requested, field left as `some 0`);
a later `send_response` whose write submission fails finds the stale non-null
field and calls `http_end 0` again. -/
theorem double_finalize_counterexample :
    httpEndCount 0 (run { nim_request := some 0 }
      [Event.readEv (-1) [] none true, Event.sendEv [0] (-32)]).2 = 2 := by decide

/-- Claim C2 amended: each single delivered event invokes `http_end` at most
once on any handle, and a teardown-triggering read error with a pending
request invokes it exactly once before discarding nothing — the field keeps
the handle, so a later error delivery finalizes it again. -/
theorem step_finalize_at_most_once_per_event (c : Client) (e : Event)
    (rq : Handle) :
    httpEndCount rq (step c e).2 ≤ 1 ∧
    (∀ nread buf beginResult contResult, nread < 0 → c.nim_request = some rq →
      httpEndCount rq
        (step c (Event.readEv nread buf beginResult contResult)).2 = 1) := by
  constructor
  · cases e with
    | readEv nread buf beginResult contResult =>
        by_cases h : 0 ≤ nread <;> cases hr : c.nim_request <;> cases contResult <;>
          simp [step, on_read, end_response, h, hr, httpEndCount,
            List.countP_cons, List.countP_nil, isHttpEnd] <;>
          split <;> simp
    | sendEv buffer r =>
        by_cases h : r ≠ 0 <;> cases hr : c.nim_request <;>
          simp [step, send_response, h, hr, httpEndCount,
            List.countP_cons, List.countP_nil, isHttpEnd] <;>
          split <;> simp
    | endEv =>
        simp [step, end_response, httpEndCount, List.countP_cons,
          List.countP_nil, isHttpEnd]
  · intro nread buf beginResult contResult h hp
    have h2 : ¬ 0 ≤ nread := by omega
    simp [step, on_read, end_response, h2, hp, httpEndCount,
      List.countP_cons, List.countP_nil, isHttpEnd]

/-- Claim C2 amended witness at a concrete input. -/
theorem step_finalize_at_most_once_per_event_witness :
    httpEndCount 3 (step { nim_request := some 3 }
      (Event.readEv (-1) [] none true)).2 = 1 := by
  exact (step_finalize_at_most_once_per_event { nim_request := some 3 }
    Event.endEv 3).2 (-1) [] none true (by decide) rfl

/-- Claim C3 counterexample: on a failed write submission with a pending
request, `send_response` does not clear `nim_request` — the field still holds
the finalized handle afterwards, contradicting the claim that it is set to
null. -/
theorem write_failure_not_cleared_counterexample :
    (send_response { nim_request := some 0 } [72, 0] (-32)).1.nim_request
      ≠ none := by decide

/-- Claim C3 amended: when the write submission fails, the error is logged
exactly once, `http_end` is invoked exactly once on a non-null pending
request (never on a null one) and close is requested — but `nim_request` is
NOT cleared: the client state is unchanged on both branches.  When the
submission succeeds, nothing is logged, finalized or closed. -/
theorem send_response_failure_behavior (c : Client) (buffer : List Nat)
    (r : Int) :
    (r ≠ 0 →
      logCount (send_response c buffer r).2 = 1 ∧
      closeCount (send_response c buffer r).2 = 1 ∧
      (∀ rq, c.nim_request = some rq →
        httpEndCount rq (send_response c buffer r).2 = 1) ∧
      (c.nim_request = none →
        ∀ rq, httpEndCount rq (send_response c buffer r).2 = 0) ∧
      (send_response c buffer r).1 = c) ∧
    (r = 0 →
      (send_response c buffer r).1 = c ∧
      logCount (send_response c buffer r).2 = 0 ∧
      closeCount (send_response c buffer r).2 = 0 ∧
      (∀ rq, httpEndCount rq (send_response c buffer r).2 = 0)) := by
  constructor
  · intro h
    cases hr : c.nim_request <;>
      simp [send_response, h, hr, logCount, closeCount, httpEndCount,
        List.countP_cons, List.countP_nil, isLog, isClose, isHttpEnd]
  · intro h
    cases hr : c.nim_request <;>
      simp [send_response, h, hr, logCount, closeCount, httpEndCount,
        List.countP_cons, List.countP_nil, isLog, isClose, isHttpEnd]

/-- Claim C3 amended witness at a concrete input. -/
theorem send_response_failure_behavior_witness :
    logCount (send_response { nim_request := some 2 } [72, 0] (-32)).2 = 1 ∧
    (send_response { nim_request := some 2 } [72, 0] (-32)).1
      = { nim_request := some 2 } := by
  have h := (send_response_failure_behavior { nim_request := some 2 } [72, 0]
    (-32)).1 (by decide)
  exact ⟨h.1, h.2.2.2.2⟩

end Nimuv
